import Mathlib

/-!
Verification development for the simptui equation-rendering core
(`src/lib.rs`): the `Equation` data model with filename sanitization, the
CSV and annotated-Markdown parsers with their shared name-deduplication
algorithm, and the per-equation render pipeline with its orchestrator.

The Rust code is embedded shallowly:

* Strings are Lean `String`s (Rust `str::split`, `str::trim`,
  `eq_ignore_ascii_case` and the sanitization regex are reimplemented
  character-wise on `String.data`).
* File and subprocess effects in the render pipeline are modelled by an
  explicit environment (`RenderEnv`) describing the outcome of each
  external interaction, a result of type `Except RenderError Unit`
  mirroring `io::Result<()>` (with `?`-propagation), and an event trace
  (`List Event`) recording every filesystem/process action and every
  diagnostic message the code emits.
* `BufReader::lines` is not modelled: `read_csv_file` takes the list of
  lines of the file.  The regex scan of `parse_markdown` is compiled by
  hand into a character-list scanner with the same leftmost,
  non-overlapping, non-greedy-body semantics.
-/

namespace Simptui

/-- Characters accepted by the sanitization regex `[^a-zA-Z0-9_.]` in
`Equation::sanitize_filename`: ASCII alphanumerics, underscore and dot. -/
def isAllowedChar (c : Char) : Bool :=
  c.isAlphanum || c == '_' || c == '.'

/-- The equation record from `lib.rs`: active flag, (sanitized) name, body. -/
structure Equation where
  active : Bool
  name : String
  body : String
deriving DecidableEq

/-- Embeds `Equation::sanitize_filename`: every character outside
`[a-zA-Z0-9_.]` is replaced by `'_'`; if the result is empty the fixed
fallback `"default_equation"` is substituted. -/
def Equation.sanitize_filename (name : String) : String :=
  let mapped := name.data.map (fun c => if isAllowedChar c then c else '_')
  if mapped.isEmpty then "default_equation" else String.mk mapped

/-- Embeds `Equation::new`: sanitizes the raw name, stores flag and body as given. -/
def Equation.new (active : Bool) (name : String) (body : String) : Equation :=
  { active := active, name := Equation.sanitize_filename name, body := body }

/-- Character-level trim of surrounding whitespace, embedding `str::trim`. -/
def trimChars (l : List Char) : List Char :=
  ((l.dropWhile Char.isWhitespace).reverse.dropWhile Char.isWhitespace).reverse

/-- String-level trim of surrounding whitespace, embedding `str::trim`. -/
def strTrim (s : String) : String :=
  String.mk (trimChars s.data)

/-- Embeds `str::eq_ignore_ascii_case`: equality after ASCII lowercasing
of every character (Lean's `Char.toLower` lowercases exactly `'A'`-`'Z'`,
as Rust's `to_ascii_lowercase` does). -/
def eq_ignore_ascii_case (a b : String) : Bool :=
  a.data.map Char.toLower == b.data.map Char.toLower

/-- Embeds `str::split(sep)`: the pieces between occurrences of `sep`
(`n` separators yield `n + 1` pieces, empty pieces included). -/
def splitListOn (sep : Char) : List Char → List (List Char)
  | [] => [[]]
  | c :: rest =>
    if c == sep then [] :: splitListOn sep rest
    else
      match splitListOn sep rest with
      | [] => [[c]]
      | h :: t => (c :: h) :: t

/-- Splits a CSV line at commas, embedding `line.split(',')`. -/
def splitCommas (line : String) : List String :=
  (splitListOn ',' line.data).map String.mk

/-- The per-row parsing step of `read_csv_file` (lib.rs lines 205-213):
a row with at least three comma-separated fields yields
`(active, body, base name)`; a shorter row is dropped (`none`).
`active` is the case-insensitive comparison of the trimmed first field
with `"yes"`; the base name defaults to `"default_equation"` when the
trimmed third field is empty. -/
def parseCsvRow (line : String) : Option (Bool × String × String) :=
  let parts := splitCommas line
  if parts.length ≥ 3 then
    let active := eq_ignore_ascii_case (strTrim (parts.getD 0 "")) "yes"
    let body := strTrim (parts.getD 1 "")
    let t := strTrim (parts.getD 2 "")
    let base := if t.data.isEmpty then "default_equation" else t
    some (active, body, base)
  else none

/-- The loop body of `read_csv_file` (lib.rs lines 203-225): for each
line, parse the row; on success run the name-deduplication step (the
`name_count` HashMap is modelled as a function `String → Nat`) and
construct the equation; short rows are skipped silently. -/
def csvLoop (counts : String → Nat) : List String → List Equation
  | [] => []
  | line :: rest =>
    match parseCsvRow line with
    | none => csvLoop counts rest
    | some (active, body, base) =>
      let c := counts base
      let name := if c > 0 then base ++ "_" ++ toString c else base
      Equation.new active name body ::
        csvLoop (fun x => if x = base then c + 1 else counts x) rest

/-- Embeds `read_csv_file`, taking the list of lines of the file
(`reader.lines()`): the first (header) line is skipped, then the loop
runs with all deduplication counters at zero. -/
def read_csv_file (lines : List String) : List Equation :=
  csvLoop (fun _ => 0) (lines.drop 1)

/-- The same loop as `csvLoop`, but over already-parsed rows.  Used to
state that `read_csv_file` processes exactly the rows with at least
three fields, in order. -/
def csvProcess (counts : String → Nat) : List (Bool × String × String) → List Equation
  | [] => []
  | (active, body, base) :: rest =>
    let c := counts base
    let name := if c > 0 then base ++ "_" ++ toString c else base
    Equation.new active name body ::
      csvProcess (fun x => if x = base then c + 1 else counts x) rest

/-- The shared name-deduplication algorithm of both parsers, abstracted
to the sequence of raw base names: the first occurrence of a base name
is kept as is, the `k`-th occurrence (`k ≥ 2`) gets the suffix
`_(k-1)`, counters being per distinct base name. -/
def assignNames (counts : String → Nat) : List String → List String
  | [] => []
  | b :: rest =>
    let c := counts b
    let n := if c > 0 then b ++ "_" ++ toString c else b
    n :: assignNames (fun x => if x = b then c + 1 else counts x) rest

/-- The raw (pre-sanitization) base names of the rows `read_csv_file` keeps. -/
def csvBases (lines : List String) : List String :=
  ((lines.drop 1).filterMap parseCsvRow).map (fun r => r.2.2)

/-- One match of the `parse_markdown` regex
`(?s)(%%(yes|no)?%%)?[\n\r]*\$\$[\n\r]*(.*?)\$\$[\n\r]*(%%(.*?)%%)?`:
the optional leading active marker (capture group 2, `some true` for
`yes`, `some false` for `no`, `none` when the group or the whole marker
is absent), the raw body (capture group 3) and the optional name marker
(capture group 5). -/
structure Capture where
  activeOpt : Option Bool
  bodyRaw : List Char
  nameOpt : Option (List Char)
deriving DecidableEq

/-- Is the character matched by `[\n\r]`. -/
def isNl (c : Char) : Bool :=
  c == '\n' || c == '\r'

/-- Greedy `[\n\r]*`. -/
def dropNl (l : List Char) : List Char :=
  l.dropWhile isNl

/-- The optional leading marker `(%%(yes|no)?%%)?` with the regex
engine's leftmost-first alternation order (`yes`, then `no`, then the
empty alternative): on success, the value of group 2 and the rest of
the input. -/
def tryMarker : List Char → Option (Option Bool × List Char)
  | '%' :: '%' :: 'y' :: 'e' :: 's' :: '%' :: '%' :: rest => some (some true, rest)
  | '%' :: '%' :: 'n' :: 'o' :: '%' :: '%' :: rest => some (some false, rest)
  | '%' :: '%' :: '%' :: '%' :: rest => some (none, rest)
  | _ => none

/-- Splits the input at the first occurrence of the two-character
delimiter `dd` (the non-greedy `(.*?)` followed by the doubled
delimiter): the shortest prefix before the delimiter and the rest after
it, or `none` when the delimiter never occurs. -/
def splitAtPair (d : Char) : List Char → Option (List Char × List Char)
  | [] => none
  | c :: rest =>
    if c == d then
      match rest with
      | c2 :: rest2 =>
        if c2 == d then some ([], rest2)
        else
          match splitAtPair d rest with
          | none => none
          | some (a, b) => some (c :: a, b)
      | [] => none
    else
      match splitAtPair d rest with
      | none => none
      | some (a, b) => some (c :: a, b)

/-- Attempts the `parse_markdown` regex anchored at the front of the
input; on success returns the capture and the input remaining after the
match (the next scan of `captures_iter` resumes there). -/
def matchAtFront (l : List Char) : Option (Capture × List Char) :=
  let (activeOpt, l1) :=
    match tryMarker l with
    | some (a, r) => (a, r)
    | none => ((none : Option Bool), l)
  match dropNl l1 with
  | '$' :: '$' :: l3 =>
    match splitAtPair '$' (dropNl l3) with
    | none => none
    | some (bodyChars, l5) =>
      match dropNl l5 with
      | '%' :: '%' :: r =>
        match splitAtPair '%' r with
        | some (nameChars, l7) => some (⟨activeOpt, bodyChars, some nameChars⟩, l7)
        | none => some (⟨activeOpt, bodyChars, none⟩, dropNl l5)
      | _ => some (⟨activeOpt, bodyChars, none⟩, dropNl l5)
  | _ => none

/-- The scan of `captures_iter`: attempt a match at every position, left
to right, resuming after the end of each match (non-overlapping).  The
fuel argument bounds the number of steps; `scanBlocks` supplies the
input length, which suffices because every step either consumes the
match (at least four characters) or advances one position. -/
def scanAux : Nat → List Char → List Capture
  | 0, _ => []
  | _, [] => []
  | Nat.succ fuel, c :: rest =>
    match matchAtFront (c :: rest) with
    | some (cap, remaining) => cap :: scanAux fuel remaining
    | none => scanAux fuel rest

/-- All matches of the `parse_markdown` regex over the document, in
document order. -/
def scanBlocks (content : String) : List Capture :=
  scanAux content.data.length content.data

/-- The raw base name a capture supplies: the name marker's content, or
the fallback `"default_equation"` when the marker is absent
(`cap.get(5).map_or("default_equation", ...)`). -/
def mdBase (cap : Capture) : String :=
  match cap.nameOpt with
  | some n => String.mk n
  | none => "default_equation"

/-- The loop body of `parse_markdown` (lib.rs lines 243-257): for each
capture, trim the body, default the active flag to `true`, run the
shared name-deduplication step and construct the equation. -/
def mdLoop (counts : String → Nat) : List Capture → List Equation
  | [] => []
  | cap :: rest =>
    let body := strTrim (String.mk cap.bodyRaw)
    let active := cap.activeOpt.getD true
    let base := mdBase cap
    let c := counts base
    let name := if c > 0 then base ++ "_" ++ toString c else base
    Equation.new active name body ::
      mdLoop (fun x => if x = base then c + 1 else counts x) rest

/-- Embeds `parse_markdown`: scan the document for equation blocks, then
process them with all deduplication counters at zero. -/
def parse_markdown (content : String) : List Equation :=
  mdLoop (fun _ => 0) (scanBlocks content)

/-- The raw (pre-sanitization) base names of the blocks `parse_markdown` finds. -/
def mdBases (content : String) : List String :=
  (scanBlocks content).map mdBase

/-- Outcomes of the external interactions of one equation's render
pipeline: whether `fs::create_dir_all` and `fs::write` succeed, the
tectonic subprocess result (`none` models an `io::Error` from
`status()?`, `some b` an exit with success flag `b`), whether the
`pdftocairo -version` probe succeeds, whether the intermediate PDF file
exists, and the pdftocairo subprocess result. -/
structure RenderEnv where
  createDirOk : Bool
  writeOk : Bool
  tectonicStatus : Option Bool
  pdftocairoFound : Bool
  pdfExists : Bool
  pdftocairoStatus : Option Bool
deriving DecidableEq

/-- The `io::Error`s the pipeline can propagate (via `?`). -/
inductive RenderError where
  | createDirFailed
  | writeFailed
  | tectonicSpawnFailed
  | pdftocairoSpawnFailed
deriving DecidableEq

/-- Observable actions and diagnostics of the render pipeline, in
program order: filesystem writes, subprocess invocations, `eprintln`
messages and the cleanup deletions. -/
inductive Event where
  | createdDir
  | wroteTex (name : String)
  | ranTectonic (name : String)
  | failedRenderMsg (name : String)
  | pdftocairoMissingWarn
  | pdfNotFoundMsg (name : String)
  | ranPdftocairo (name : String)
  | svgFailedMsg (name : String)
  | removedTex (name : String)
  | removedPdf (name : String)
deriving DecidableEq

/-- Embeds `Equation::convert_pdf_to_svg` (lib.rs lines 78-107): when
the `pdftocairo -version` probe errors, print the missing-rasterizer
warning and return `Ok`; when the intermediate PDF is missing, print a
per-equation message and return `Ok`; otherwise invoke pdftocairo,
propagating a spawn error and printing a per-equation message on
non-zero exit (still `Ok`). -/
def Equation.convert_pdf_to_svg (eq : Equation) (env : RenderEnv) :
    Except RenderError Unit × List Event :=
  if env.pdftocairoFound = false then
    (Except.ok (), [Event.pdftocairoMissingWarn])
  else if env.pdfExists = false then
    (Except.ok (), [Event.pdfNotFoundMsg eq.name])
  else
    match env.pdftocairoStatus with
    | none => (Except.error RenderError.pdftocairoSpawnFailed, [Event.ranPdftocairo eq.name])
    | some true => (Except.ok (), [Event.ranPdftocairo eq.name])
    | some false =>
      (Except.ok (), [Event.ranPdftocairo eq.name, Event.svgFailedMsg eq.name])

/-- Embeds `Equation::cleanup_intermediate_files` (lib.rs lines
109-118): best-effort deletion of the `.tex` and `.pdf` files;
deletion errors are swallowed (`.ok()`), so the result is always `Ok`. -/
def Equation.cleanup_intermediate_files (eq : Equation) :
    Except RenderError Unit × List Event :=
  (Except.ok (), [Event.removedTex eq.name, Event.removedPdf eq.name])

/-- Embeds `Equation::render` (lib.rs lines 38-76): skip inactive
equations; create the output directory and write the generated source,
propagating either failure; invoke tectonic; on success rasterize (and
optionally clean up), on non-zero exit print the per-equation failure
message and return `Ok` without rasterizing. -/
def Equation.render (eq : Equation) (env : RenderEnv) (delete_intermediates : Bool) :
    Except RenderError Unit × List Event :=
  if eq.active = false then (Except.ok (), [])
  else if env.createDirOk = false then (Except.error RenderError.createDirFailed, [])
  else if env.writeOk = false then (Except.error RenderError.writeFailed, [Event.createdDir])
  else
    let pre := [Event.createdDir, Event.wroteTex eq.name, Event.ranTectonic eq.name]
    match env.tectonicStatus with
    | none => (Except.error RenderError.tectonicSpawnFailed, pre)
    | some true =>
      let conv := eq.convert_pdf_to_svg env
      match conv.1 with
      | Except.error e => (Except.error e, pre ++ conv.2)
      | Except.ok _ =>
        if delete_intermediates then
          (Except.ok (), pre ++ conv.2 ++ (eq.cleanup_intermediate_files).2)
        else
          (Except.ok (), pre ++ conv.2)
    | some false =>
      (Except.ok (), pre ++ [Event.failedRenderMsg eq.name])

/-- The loop of `render_equations` (lib.rs lines 180-184) over the
already-filtered active equations, each paired with the environment
describing its external interactions: `eq.render(...)?` propagates the
first fatal error, stopping the loop; otherwise traces accumulate in
order. -/
def renderLoop (delete_intermediates : Bool) :
    List (Equation × RenderEnv) → Except RenderError Unit × List Event
  | [] => (Except.ok (), [])
  | (eq, env) :: rest =>
    match eq.render env delete_intermediates with
    | (Except.ok _, tr) =>
      let r := renderLoop delete_intermediates rest
      (r.1, tr ++ r.2)
    | (Except.error e, tr) => (Except.error e, tr)

/-- Embeds `render_equations` (lib.rs lines 164-188): filter to the
active equations, then render each in order, propagating fatal errors
(the progress bar is presentation-layer and not modelled). -/
def render_equations (items : List (Equation × RenderEnv)) (delete_intermediates : Bool) :
    Except RenderError Unit × List Event :=
  renderLoop delete_intermediates (items.filter (fun p => p.1.active))

/-- The spec's name invariant `[A-Za-z0-9_.]+`: nonempty, every
character allowed. -/
def matchesNamePattern (s : String) : Bool :=
  !s.data.isEmpty && s.data.all isAllowedChar

/-- An environment in which every external interaction succeeds. -/
def envAllOk : RenderEnv :=
  { createDirOk := true, writeOk := true, tectonicStatus := some true,
    pdftocairoFound := true, pdfExists := true, pdftocairoStatus := some true }

/-- As `envAllOk`, but the typesetting engine exits non-zero. -/
def envTectonicFails : RenderEnv :=
  { envAllOk with tectonicStatus := some false }

/-- As `envAllOk`, but the rasterizer executable is absent. -/
def envNoPdftocairo : RenderEnv :=
  { envAllOk with pdftocairoFound := false }

/-- As `envAllOk`, but the output directory cannot be created. -/
def envNoDir : RenderEnv :=
  { envAllOk with createDirOk := false }

/-- As `envAllOk`, but the generated source cannot be written. -/
def envNoWrite : RenderEnv :=
  { envAllOk with writeOk := false }

/-- Every character the sanitization map produces is allowed. -/
theorem sanitize_map_allowed (l : List Char) :
    (l.map (fun c => if isAllowedChar c then c else '_')).all isAllowedChar = true := by
  induction l with
  | nil => rfl
  | cons c t ih =>
    simp only [List.map_cons, List.all_cons, Bool.and_eq_true]
    refine ⟨?_, ih⟩
    cases hc : isAllowedChar c with
    | true => simp [hc]
    | false => simp [hc]; decide

/-- The sanitized name always matches the invariant pattern. -/
theorem sanitize_matchesNamePattern (nm : String) :
    matchesNamePattern (Equation.sanitize_filename nm) = true := by
  unfold Equation.sanitize_filename
  cases h : nm.data with
  | nil => simp [h]; decide
  | cons c t =>
    simp only [h, List.map_cons, List.isEmpty_cons, if_neg Bool.false_ne_true]
    simp only [matchesNamePattern, String.data, Bool.and_eq_true, Bool.not_eq_true']
    constructor
    · rfl
    · have := sanitize_map_allowed (c :: t)
      simpa using this

/-- `assignNames` preserves length. -/
theorem assignNames_length (counts : String → Nat) (bs : List String) :
    (assignNames counts bs).length = bs.length := by
  induction bs generalizing counts with
  | nil => rfl
  | cons b rest ih => simp [assignNames, ih]

/-- Closed form of the deduplication algorithm: the name assigned at
position `i` is the base name at `i`, suffixed with `_c` where `c` is
the running counter (the initial counter value plus the number of
earlier occurrences of the same base name), the first occurrence
(counter zero) staying unsuffixed. -/
theorem assignNames_getD (bs : List String) (counts : String → Nat) (i : Nat)
    (h : i < bs.length) :
    (assignNames counts bs).getD i "" =
      (if counts (bs.getD i "") + ((bs.take i).count (bs.getD i "")) > 0
       then bs.getD i "" ++ "_" ++
         toString (counts (bs.getD i "") + ((bs.take i).count (bs.getD i "")))
       else bs.getD i "") := by
  induction bs generalizing counts i with
  | nil => simp at h
  | cons b0 rest ih =>
    cases i with
    | zero => simp [assignNames]
    | succ i =>
      have hi : i < rest.length := by simpa using h
      simp only [assignNames, List.getD_cons_succ, List.take_succ_cons, List.count_cons]
      rw [ih _ i hi]
      by_cases hb : rest.getD i "" = b0
      · rw [hb]
        simp only [if_pos rfl, beq_self_eq_true, if_true]
        have harith :
            counts b0 + 1 + (rest.take i).count b0 =
              counts b0 + ((rest.take i).count b0 + 1) := by omega
        rw [harith]
      · have hbeq : (b0 == rest.getD i "") = false :=
          beq_eq_false_iff_ne.mpr (Ne.symm hb)
        simp only [if_neg hb, hbeq, Bool.false_eq_true, if_false, Nat.add_zero]

/-- When no base name repeats and all counters start at zero, the
deduplication assigns every base name unchanged. -/
theorem assignNames_of_nodup (bs : List String) (counts : String → Nat)
    (h0 : ∀ b ∈ bs, counts b = 0) (hnd : bs.Nodup) :
    assignNames counts bs = bs := by
  induction bs generalizing counts with
  | nil => rfl
  | cons b0 rest ih =>
    have hb0 : counts b0 = 0 := h0 b0 (List.mem_cons_self b0 rest)
    have hnd' := hnd
    rw [List.nodup_cons] at hnd'
    simp only [assignNames, hb0]
    rw [show (if 0 > 0 then b0 ++ "_" ++ toString 0 else b0) = b0 from rfl]
    congr 1
    exact ih _ (fun y hy => by
      have hyne : y ≠ b0 := fun hEq => hnd'.1 (hEq ▸ hy)
      simp [hyne, hb0, h0 y (List.mem_cons_of_mem _ hy)]) hnd'.2

/-- `csvLoop` processes exactly the rows `parseCsvRow` accepts, in
order: rows with fewer than three fields are dropped silently. -/
theorem csvLoop_eq_csvProcess (lines : List String) (counts : String → Nat) :
    csvLoop counts lines = csvProcess counts (lines.filterMap parseCsvRow) := by
  induction lines generalizing counts with
  | nil => rfl
  | cons line rest ih =>
    cases h : parseCsvRow line with
    | none => simp [csvLoop, h, List.filterMap_cons, ih]
    | some r =>
      obtain ⟨a, b, c⟩ := r
      simp [csvLoop, csvProcess, h, List.filterMap_cons, ih]

/-- The names `csvProcess` produces are the deduplicated raw base
names, sanitized afterwards. -/
theorem csvProcess_names (rows : List (Bool × String × String)) (counts : String → Nat) :
    (csvProcess counts rows).map Equation.name =
      (assignNames counts (rows.map (fun r => r.2.2))).map Equation.sanitize_filename := by
  induction rows generalizing counts with
  | nil => rfl
  | cons r rest ih =>
    obtain ⟨a, b, c⟩ := r
    simp [csvProcess, assignNames, Equation.new, ih]

/-- The names `mdLoop` produces are the deduplicated raw base names,
sanitized afterwards. -/
theorem mdLoop_names (caps : List Capture) (counts : String → Nat) :
    (mdLoop counts caps).map Equation.name =
      (assignNames counts (caps.map mdBase)).map Equation.sanitize_filename := by
  induction caps generalizing counts with
  | nil => rfl
  | cons cap rest ih =>
    simp [mdLoop, assignNames, Equation.new, ih]

/-- The active flags `mdLoop` produces: the value of the leading
marker, defaulting to `true` when it is absent. -/
theorem mdLoop_actives (caps : List Capture) (counts : String → Nat) :
    (mdLoop counts caps).map Equation.active =
      caps.map (fun c => c.activeOpt.getD true) := by
  induction caps generalizing counts with
  | nil => rfl
  | cons cap rest ih =>
    simp [mdLoop, Equation.new, ih]

/-- C1: the claim as stated is false on the code.  Three CSV rows with
raw base names `alpha`, `alpha`, `alpha_1` are parsed to equations
named `alpha`, `alpha_1`, `alpha_1`: the suffix generated for the
second `alpha` collides with the literal base name `alpha_1`, so one
parsed batch carries the same name twice. -/
theorem c1_counterexample :
    ((read_csv_file [ "h", "yes,x,alpha", "yes,y,alpha", "yes,z,alpha_1" ]).map
        Equation.name = ["alpha", "alpha_1", "alpha_1"]) ∧
    ¬ ((read_csv_file [ "h", "yes,x,alpha", "yes,y,alpha", "yes,z,alpha_1" ]).map
        Equation.name).Nodup := by
  constructor
  · decide
  · decide

/-- C1 (amended): in both parsers the names of a parsed batch are
pairwise distinct provided the raw base names of the batch are pairwise
distinct and remain pairwise distinct after sanitization; with repeated
base names, a generated suffix can collide with another base name (see
the counterexample). -/
theorem c1_names_nodup_of_distinct_bases :
    (∀ lines : List String, (csvBases lines).Nodup →
      ((csvBases lines).map Equation.sanitize_filename).Nodup →
      ((read_csv_file lines).map Equation.name).Nodup) ∧
    (∀ content : String, (mdBases content).Nodup →
      ((mdBases content).map Equation.sanitize_filename).Nodup →
      ((parse_markdown content).map Equation.name).Nodup) := by
  constructor
  · intro lines h1 h2
    simp only [csvBases] at h1 h2
    unfold read_csv_file
    rw [csvLoop_eq_csvProcess, csvProcess_names,
      assignNames_of_nodup _ _ (fun b _ => rfl) h1]
    exact h2
  · intro content h1 h2
    simp only [mdBases] at h1 h2
    unfold parse_markdown
    rw [mdLoop_names, assignNames_of_nodup _ _ (fun b _ => rfl) h1]
    exact h2

/-- Witness for the amended C1 at concrete inputs for both parsers. -/
theorem c1_witness :
    ((csvBases [ "h", "yes,a,x", "no,b,y" ]).Nodup ∧
      ((csvBases [ "h", "yes,a,x", "no,b,y" ]).map Equation.sanitize_filename).Nodup ∧
      ((read_csv_file [ "h", "yes,a,x", "no,b,y" ]).map Equation.name).Nodup) ∧
    ((mdBases "$$ a $$\n%%n1%%\n$$ b $$\n%%n2%%").Nodup ∧
      ((mdBases "$$ a $$\n%%n1%%\n$$ b $$\n%%n2%%").map Equation.sanitize_filename).Nodup ∧
      ((parse_markdown "$$ a $$\n%%n1%%\n$$ b $$\n%%n2%%").map Equation.name).Nodup) :=
  ⟨⟨by decide, by decide,
      c1_names_nodup_of_distinct_bases.1 _ (by decide) (by decide)⟩,
    ⟨by decide, by decide,
      c1_names_nodup_of_distinct_bases.2 _ (by decide) (by decide)⟩⟩

/-- C2: the claim as stated is false on the code.  The all-disallowed
input `"???"` does not yield the fallback name: each `?` is replaced by
`_`, so the stored name is `"___"`, which is nonempty and therefore
never replaced by `"default_equation"`. -/
theorem c2_counterexample :
    (Equation.new true "???" "body").name = "___" ∧
    (Equation.new true "???" "body").name ≠ "default_equation" := by
  constructor
  · decide
  · decide

/-- C2 (amended): for every raw name the stored name matches
`^[A-Za-z0-9_.]+$` and is never empty; the empty input yields the
fallback name `"default_equation"`; an input of only disallowed
characters such as `"???"` yields underscores (`"___"`), not the
fallback. -/
theorem c2_sanitization :
    (∀ (a : Bool) (nm body : String),
      matchesNamePattern ((Equation.new a nm body).name) = true) ∧
    (Equation.new true "" "b").name = "default_equation" ∧
    (Equation.new true "???" "b").name = "___" := by
  refine ⟨fun a nm body => sanitize_matchesNamePattern nm, by decide, by decide⟩

/-- C3: in both parsers the names are the raw (pre-sanitization) base
names run through the shared deduplication algorithm and sanitized
afterwards; the deduplication assigns to position `i` the base name
unsuffixed when no earlier row has the same base name, and the suffix
`_c` (`c` the number of earlier occurrences of that same base name)
otherwise, counters being independent per distinct base name; rows
named `alpha, alpha, beta, alpha` yield `alpha, alpha_1, beta, alpha_2`. -/
theorem c3_dedup_keyed_on_raw_base_names :
    (∀ lines : List String, (read_csv_file lines).map Equation.name =
      (assignNames (fun _ => 0) (csvBases lines)).map Equation.sanitize_filename) ∧
    (∀ content : String, (parse_markdown content).map Equation.name =
      (assignNames (fun _ => 0) (mdBases content)).map Equation.sanitize_filename) ∧
    (∀ (bs : List String) (i : Nat), i < bs.length →
      (assignNames (fun _ => 0) bs).getD i "" =
        (if ((bs.take i).count (bs.getD i "")) > 0
         then bs.getD i "" ++ "_" ++ toString ((bs.take i).count (bs.getD i ""))
         else bs.getD i "")) ∧
    ((read_csv_file [ "h", "yes,a,alpha", "yes,b,alpha", "yes,c,beta", "yes,d,alpha" ]).map
      Equation.name = ["alpha", "alpha_1", "beta", "alpha_2"]) := by
  refine ⟨?_, ?_, ?_, by decide⟩
  · intro lines
    simp only [csvBases]
    unfold read_csv_file
    rw [csvLoop_eq_csvProcess, csvProcess_names]
  · intro content
    simp only [mdBases]
    unfold parse_markdown
    rw [mdLoop_names]
  · intro bs i h
    have := assignNames_getD bs (fun _ => 0) i h
    simpa using this

/-- Witness for C3's deduplication formula at a concrete input. -/
theorem c3_witness :
    1 < (["alpha", "alpha"] : List String).length ∧
    (assignNames (fun _ => 0) ["alpha", "alpha"]).getD 1 "" =
      (if (((["alpha", "alpha"] : List String).take 1).count
            ((["alpha", "alpha"] : List String).getD 1 "")) > 0
       then (["alpha", "alpha"] : List String).getD 1 "" ++ "_" ++
         toString (((["alpha", "alpha"] : List String).take 1).count
           ((["alpha", "alpha"] : List String).getD 1 ""))
       else (["alpha", "alpha"] : List String).getD 1 "") :=
  ⟨by decide, c3_dedup_keyed_on_raw_base_names.2.2.1 ["alpha", "alpha"] 1 (by decide)⟩

/-- C4: the annotated-Markdown grammar behaves as specified on the
given inputs (one inactive equation named `quad` with body `x^2`; a
bare block defaults to active with the fallback name; two consecutive
bare blocks yield the fallback name and its `_1` suffix, in document
order), and in general an absent leading marker defaults the active
flag to `true`. -/
theorem c4_markdown_grammar :
    (parse_markdown "%%no%%\n$$ x^2 $$\n%%quad%%" =
      [{ active := false, name := "quad", body := "x^2" }]) ∧
    (parse_markdown "$$ y $$" =
      [{ active := true, name := "default_equation", body := "y" }]) ∧
    (parse_markdown "$$ x $$\n$$ y $$" =
      [{ active := true, name := "default_equation", body := "x" },
        { active := true, name := "default_equation_1", body := "y" }]) ∧
    (∀ (counts : String → Nat) (caps : List Capture),
      (mdLoop counts caps).map Equation.active =
        caps.map (fun c => c.activeOpt.getD true)) :=
  ⟨by rfl, by rfl, by rfl, fun counts caps => mdLoop_actives caps counts⟩

/-- C5: `read_csv_file` skips the header line, silently drops every row
with fewer than three comma-separated fields, marks a row active
exactly when its trimmed first field equals `"yes"` case-insensitively,
and produces the surviving rows in row order. -/
theorem c5_csv_tolerant_parsing :
    (∀ (counts : String → Nat) (lines : List String),
      csvLoop counts lines = csvProcess counts (lines.filterMap parseCsvRow)) ∧
    (∀ lines : List String,
      read_csv_file lines = csvLoop (fun _ => 0) (lines.drop 1)) ∧
    (∀ line : String, (splitCommas line).length < 3 → parseCsvRow line = none) ∧
    (∀ (line : String) (r : Bool × String × String), parseCsvRow line = some r →
      r.1 = eq_ignore_ascii_case (strTrim ((splitCommas line).getD 0 "")) "yes") ∧
    (read_csv_file [ "active,body,name", "YES,a,x", "no,b", "No,c,z" ] =
      [Equation.new true "x" "a", Equation.new false "z" "c"]) := by
  refine ⟨fun counts lines => csvLoop_eq_csvProcess lines counts, fun lines => rfl,
    ?_, ?_, by decide⟩
  · intro line h
    simp only [parseCsvRow]
    rw [if_neg (by omega)]
  · intro line r h
    simp only [parseCsvRow] at h
    by_cases hlen : (splitCommas line).length ≥ 3
    · rw [if_pos hlen] at h
      injection h with h2
      rw [← h2]
    · rw [if_neg hlen] at h
      exact absurd h (by simp)

/-- Witness for C5's row-level clauses at concrete rows. -/
theorem c5_witness :
    ((splitCommas "no,b").length < 3 ∧ parseCsvRow "no,b" = none) ∧
    (parseCsvRow "YES,a,x" = some (true, "a", "x") ∧
      (true, ("a", "x")).1 =
        eq_ignore_ascii_case (strTrim ((splitCommas "YES,a,x").getD 0 "")) "yes") :=
  ⟨⟨by decide, c5_csv_tolerant_parsing.2.2.1 "no,b" (by decide)⟩,
    ⟨by decide, c5_csv_tolerant_parsing.2.2.2.1 "YES,a,x" (true, "a", "x") (by decide)⟩⟩

/-- An inactive equation's pipeline is a no-op success. -/
theorem render_inactive (eq : Equation) (env : RenderEnv) (di : Bool)
    (h : eq.active = false) : eq.render env di = (Except.ok (), []) := by
  simp [Equation.render, h]

/-- When the output directory cannot be created, `render` fails
immediately with nothing done. -/
theorem render_createDirFails (eq : Equation) (env : RenderEnv) (di : Bool)
    (ha : eq.active = true) (hd : env.createDirOk = false) :
    eq.render env di = (Except.error RenderError.createDirFailed, []) := by
  simp [Equation.render, ha, hd]

/-- When the generated source cannot be written, `render` fails after
creating the directory. -/
theorem render_writeFails (eq : Equation) (env : RenderEnv) (di : Bool)
    (ha : eq.active = true) (hd : env.createDirOk = true) (hw : env.writeOk = false) :
    eq.render env di = (Except.error RenderError.writeFailed, [Event.createdDir]) := by
  simp [Equation.render, ha, hd, hw]

/-- When the typesetting engine exits non-zero, `render` reports the
per-equation failure message, performs no rasterization and no cleanup,
and returns `Ok`. -/
theorem render_engineFails (eq : Equation) (env : RenderEnv) (di : Bool)
    (ha : eq.active = true) (hd : env.createDirOk = true) (hw : env.writeOk = true)
    (ht : env.tectonicStatus = some false) :
    eq.render env di = (Except.ok (),
      [Event.createdDir, Event.wroteTex eq.name, Event.ranTectonic eq.name,
        Event.failedRenderMsg eq.name]) := by
  simp [Equation.render, ha, hd, hw, ht]

/-- When the rasterizer executable is absent, `render` emits the
warning for this equation and returns `Ok` (cleanup still runs when
requested). -/
theorem render_noPdftocairo (eq : Equation) (env : RenderEnv) (di : Bool)
    (ha : eq.active = true) (hd : env.createDirOk = true) (hw : env.writeOk = true)
    (ht : env.tectonicStatus = some true) (hp : env.pdftocairoFound = false) :
    eq.render env di = (Except.ok (),
      [Event.createdDir, Event.wroteTex eq.name, Event.ranTectonic eq.name,
        Event.pdftocairoMissingWarn] ++
        (if di then [Event.removedTex eq.name, Event.removedPdf eq.name] else [])) := by
  cases di <;>
    simp [Equation.render, Equation.convert_pdf_to_svg,
      Equation.cleanup_intermediate_files, ha, hd, hw, ht, hp]

/-- Over a list of active equations whose environments all succeed up
to tectonic but lack the rasterizer, the loop succeeds and emits the
missing-rasterizer warning once per equation. -/
theorem renderLoop_warnCount (di : Bool) (l : List (Equation × RenderEnv))
    (h : ∀ p ∈ l, p.1.active = true ∧ p.2.createDirOk = true ∧ p.2.writeOk = true ∧
      p.2.tectonicStatus = some true ∧ p.2.pdftocairoFound = false) :
    (renderLoop di l).1 = Except.ok () ∧
    (renderLoop di l).2.count Event.pdftocairoMissingWarn = l.length := by
  induction l with
  | nil => exact ⟨rfl, rfl⟩
  | cons p rest ih =>
    obtain ⟨eq, env⟩ := p
    obtain ⟨ha, hd, hw, ht, hp⟩ := h _ (List.mem_cons_self _ rest)
    have hr := render_noPdftocairo eq env di ha hd hw ht hp
    obtain ⟨ih1, ih2⟩ := ih (fun q hq => h q (List.mem_cons_of_mem _ hq))
    rw [show renderLoop di ((eq, env) :: rest) =
        ((renderLoop di rest).1,
          ([Event.createdDir, Event.wroteTex eq.name, Event.ranTectonic eq.name,
            Event.pdftocairoMissingWarn] ++
            (if di then [Event.removedTex eq.name, Event.removedPdf eq.name] else [])) ++
            (renderLoop di rest).2) from by
      simp [renderLoop, hr]]
    refine ⟨ih1, ?_⟩
    cases di <;> simp [List.count_append, List.count_cons, ih2]

/-- C6: a typesetting-engine failure is isolated: the per-equation
pipeline reports the failure, skips rasterization and returns `Ok`, so
the orchestrator continues — one failing equation among three leaves
the other two attempted and the batch successful. -/
theorem c6_engine_failure_isolated :
    (∀ (eq : Equation) (env : RenderEnv) (di : Bool),
      eq.active = true → env.createDirOk = true → env.writeOk = true →
      env.tectonicStatus = some false →
      eq.render env di = (Except.ok (),
        [Event.createdDir, Event.wroteTex eq.name, Event.ranTectonic eq.name,
          Event.failedRenderMsg eq.name])) ∧
    (render_equations
        [(Equation.new true "a" "x", envAllOk),
          (Equation.new true "b" "y", envTectonicFails),
          (Equation.new true "c" "z", envAllOk)] false =
      (Except.ok (),
        [Event.createdDir, Event.wroteTex "a", Event.ranTectonic "a",
          Event.ranPdftocairo "a",
          Event.createdDir, Event.wroteTex "b", Event.ranTectonic "b",
          Event.failedRenderMsg "b",
          Event.createdDir, Event.wroteTex "c", Event.ranTectonic "c",
          Event.ranPdftocairo "c"])) :=
  ⟨render_engineFails, by rfl⟩

/-- Witness for C6's per-equation clause at a concrete equation. -/
theorem c6_witness :
    (Equation.new true "w" "b").active = true ∧
    envTectonicFails.createDirOk = true ∧
    envTectonicFails.writeOk = true ∧
    envTectonicFails.tectonicStatus = some false ∧
    (Equation.new true "w" "b").render envTectonicFails false = (Except.ok (),
      [Event.createdDir, Event.wroteTex "w", Event.ranTectonic "w",
        Event.failedRenderMsg "w"]) :=
  ⟨by decide, by decide, by decide, by decide,
    c6_engine_failure_isolated.1 (Equation.new true "w" "b") envTectonicFails false
      (by decide) (by decide) (by decide) (by decide)⟩

/-- C7: the claim as stated is false on the code.  The rasterizer
probe lives inside `convert_pdf_to_svg`, which runs once per equation
reaching rasterization, so a batch of two active equations with the
rasterizer absent prints the warning twice, not once per run. -/
theorem c7_counterexample :
    render_equations
        [(Equation.new true "a" "x", envNoPdftocairo),
          (Equation.new true "b" "y", envNoPdftocairo)] false =
      (Except.ok (),
        [Event.createdDir, Event.wroteTex "a", Event.ranTectonic "a",
          Event.pdftocairoMissingWarn,
          Event.createdDir, Event.wroteTex "b", Event.ranTectonic "b",
          Event.pdftocairoMissingWarn]) ∧
    (render_equations
        [(Equation.new true "a" "x", envNoPdftocairo),
          (Equation.new true "b" "y", envNoPdftocairo)] false).2.count
      Event.pdftocairoMissingWarn = 2 :=
  ⟨by rfl, by rfl⟩

/-- C7 (amended): the rasterizer availability is probed on each
equation's rasterization step, and when it is absent the one-line
warning is printed once per such equation (not once per batch); the
pipeline treats this as success (`render` returns `Ok`), so over a
batch the run succeeds with one warning per active equation. -/
theorem c7_rasterizer_missing_warns_per_equation :
    (∀ (eq : Equation) (env : RenderEnv) (di : Bool),
      eq.active = true → env.createDirOk = true → env.writeOk = true →
      env.tectonicStatus = some true → env.pdftocairoFound = false →
      eq.render env di = (Except.ok (),
        [Event.createdDir, Event.wroteTex eq.name, Event.ranTectonic eq.name,
          Event.pdftocairoMissingWarn] ++
          (if di then [Event.removedTex eq.name, Event.removedPdf eq.name] else []))) ∧
    (∀ (items : List (Equation × RenderEnv)) (di : Bool),
      (∀ p ∈ items, p.2.createDirOk = true ∧ p.2.writeOk = true ∧
        p.2.tectonicStatus = some true ∧ p.2.pdftocairoFound = false) →
      (render_equations items di).1 = Except.ok () ∧
      (render_equations items di).2.count Event.pdftocairoMissingWarn =
        (items.filter (fun p => p.1.active)).length) := by
  refine ⟨render_noPdftocairo, ?_⟩
  intro items di h
  exact renderLoop_warnCount di (items.filter (fun p => p.1.active))
    (fun p hp => ⟨by simpa using List.of_mem_filter hp,
      (h p (List.mem_of_mem_filter hp)).1, (h p (List.mem_of_mem_filter hp)).2.1,
      (h p (List.mem_of_mem_filter hp)).2.2.1, (h p (List.mem_of_mem_filter hp)).2.2.2⟩)

/-- Witness for the amended C7 at concrete inputs. -/
theorem c7_witness :
    ((Equation.new true "w" "b").render envNoPdftocairo false = (Except.ok (),
      [Event.createdDir, Event.wroteTex "w", Event.ranTectonic "w",
        Event.pdftocairoMissingWarn])) ∧
    ((render_equations [(Equation.new true "w" "b", envNoPdftocairo)] false).1 =
        Except.ok () ∧
      (render_equations [(Equation.new true "w" "b", envNoPdftocairo)] false).2.count
          Event.pdftocairoMissingWarn =
        (([(Equation.new true "w" "b", envNoPdftocairo)]).filter
          (fun p => p.1.active)).length) :=
  ⟨c7_rasterizer_missing_warns_per_equation.1 (Equation.new true "w" "b")
      envNoPdftocairo false (by decide) (by decide) (by decide) (by decide) (by decide),
    c7_rasterizer_missing_warns_per_equation.2
      [(Equation.new true "w" "b", envNoPdftocairo)] false (by decide)⟩

/-- C8: directory-creation failure (and source-write failure) is fatal:
the error propagates out of `render`, and out of `render_equations`,
aborting the batch before any file is written or any engine invoked. -/
theorem c8_directory_failure_fatal :
    (∀ (eq : Equation) (env : RenderEnv) (di : Bool),
      eq.active = true → env.createDirOk = false →
      eq.render env di = (Except.error RenderError.createDirFailed, [])) ∧
    (∀ (eq : Equation) (env : RenderEnv) (di : Bool),
      eq.active = true → env.createDirOk = true → env.writeOk = false →
      eq.render env di = (Except.error RenderError.writeFailed, [Event.createdDir])) ∧
    (∀ (items : List (Equation × RenderEnv)) (di : Bool),
      (∀ p ∈ items, p.2.createDirOk = false) →
      (∃ p ∈ items, p.1.active = true) →
      render_equations items di = (Except.error RenderError.createDirFailed, [])) := by
  refine ⟨render_createDirFails, render_writeFails, ?_⟩
  intro items di hall hex
  obtain ⟨p, hp, hact⟩ := hex
  show renderLoop di (items.filter (fun q => q.1.active)) = _
  cases hf : items.filter (fun q => q.1.active) with
  | nil =>
    exfalso
    have hmem : p ∈ items.filter (fun q => q.1.active) :=
      List.mem_filter.mpr ⟨hp, by simpa using hact⟩
    rw [hf] at hmem
    exact absurd hmem (List.not_mem_nil p)
  | cons q t =>
    have hq : q ∈ items.filter (fun r => r.1.active) := by
      rw [hf]; exact List.mem_cons_self q t
    have hqact : q.1.active = true := by simpa using List.of_mem_filter hq
    have hqdir : q.2.createDirOk = false := hall q (List.mem_of_mem_filter hq)
    obtain ⟨qe, qenv⟩ := q
    simp [renderLoop, render_createDirFails qe qenv di hqact hqdir]

/-- Witness for C8 at concrete inputs. -/
theorem c8_witness :
    ((Equation.new true "w" "b").render envNoDir false =
      (Except.error RenderError.createDirFailed, [])) ∧
    ((Equation.new true "w" "b").render envNoWrite false =
      (Except.error RenderError.writeFailed, [Event.createdDir])) ∧
    (render_equations [(Equation.new true "w" "b", envNoDir)] false =
      (Except.error RenderError.createDirFailed, [])) :=
  ⟨c8_directory_failure_fatal.1 (Equation.new true "w" "b") envNoDir false
      (by decide) (by decide),
    c8_directory_failure_fatal.2.1 (Equation.new true "w" "b") envNoWrite false
      (by decide) (by decide) (by decide),
    c8_directory_failure_fatal.2.2 [(Equation.new true "w" "b", envNoDir)] false
      (by decide) (by decide)⟩

/-- C9: an inactive equation's pipeline is a no-op success with no
events (no directories, files or subprocesses), and `render_equations`
filters inactive equations out before running any pipeline. -/
theorem c9_inactive_equations_skipped :
    (∀ (eq : Equation) (env : RenderEnv) (di : Bool),
      eq.active = false → eq.render env di = (Except.ok (), [])) ∧
    (∀ (items : List (Equation × RenderEnv)) (di : Bool),
      render_equations items di =
        renderLoop di (items.filter (fun p => p.1.active))) ∧
    (∀ (items : List (Equation × RenderEnv)) (di : Bool),
      (∀ p ∈ items, p.1.active = false) →
      render_equations items di = (Except.ok (), [])) := by
  refine ⟨render_inactive, fun items di => rfl, ?_⟩
  intro items di h
  show renderLoop di (items.filter (fun p => p.1.active)) = _
  rw [List.filter_eq_nil_iff.mpr (fun p hp => by simpa using h p hp)]
  rfl

/-- Witness for C9 at concrete inputs. -/
theorem c9_witness :
    ((Equation.new false "w" "b").render envAllOk true = (Except.ok (), [])) ∧
    (render_equations [(Equation.new false "w" "b", envAllOk)] false =
      (Except.ok (), [])) :=
  ⟨c9_inactive_equations_skipped.1 (Equation.new false "w" "b") envAllOk true
      (by decide),
    c9_inactive_equations_skipped.2.2 [(Equation.new false "w" "b", envAllOk)] false
      (by decide)⟩

/-- C10: with cleanup requested but the engine exiting non-zero, no
cleanup runs for that equation: the pipeline returns `Ok`, the `.tex`
write is in the trace, and no deletion event is. -/
theorem c10_no_cleanup_on_engine_failure :
    ∀ (eq : Equation) (env : RenderEnv),
      eq.active = true → env.createDirOk = true → env.writeOk = true →
      env.tectonicStatus = some false →
      (eq.render env true).1 = Except.ok () ∧
      Event.wroteTex eq.name ∈ (eq.render env true).2 ∧
      Event.removedTex eq.name ∉ (eq.render env true).2 ∧
      Event.removedPdf eq.name ∉ (eq.render env true).2 := by
  intro eq env ha hd hw ht
  rw [render_engineFails eq env true ha hd hw ht]
  refine ⟨rfl, by simp, by simp, by simp⟩

/-- Witness for C10 at a concrete equation. -/
theorem c10_witness :
    ((Equation.new true "w" "b").render envTectonicFails true).1 = Except.ok () ∧
    Event.wroteTex "w" ∈ ((Equation.new true "w" "b").render envTectonicFails true).2 ∧
    Event.removedTex "w" ∉ ((Equation.new true "w" "b").render envTectonicFails true).2 ∧
    Event.removedPdf "w" ∉ ((Equation.new true "w" "b").render envTectonicFails true).2 :=
  c10_no_cleanup_on_engine_failure (Equation.new true "w" "b") envTectonicFails
    (by decide) (by decide) (by decide) (by decide)

end Simptui
